import Mathlib

/-!
Verification development for the GEFCom2014 data-preparation module
(src/dts/datasets/gefcom2014.py).

The module is embedded shallowly:
* a dataframe row of the load series is a `Row` (parsed datetime, LOAD value,
  the 25 temperature readings w1..w25);
* numpy / pandas float arrays are lists of exact numbers (`ℚ` for data that is
  only moved around, `ℝ` once the standard scaler divides by a square root);
* python negative-index slicing is modelled by `pyTake` / `pySliceFrom`;
* fallible code (the ValueError raises of `load_data`, the numpy IndexError of
  the multi/train split) returns `Except String`.

The sklearn scalers are external collaborators of the module (the spec scopes
them out as a standard preprocessing library with standardize / min-max
semantics); their fitted state is embedded by `Scaler` with the exact
parameters sklearn stores (mean and population variance, data min and max) and
`Scaler.transformVal` / `Scaler.inverseVal` implement their column transforms,
including the handle-zeros guard sklearn applies to a zero scale.
-/

/-- Python slicing `l[:k]` for a possibly negative `k`: a nonnegative `k` keeps
the first `k` elements, a negative `k` drops the last `-k`. -/
def pyTake (k : ℤ) (l : List α) : List α :=
  if k < 0 then l.take ((l.length : ℤ) + k).toNat else l.take k.toNat

/-- Python slicing `l[k:]` for a possibly negative `k`: a nonnegative `k` drops
the first `k` elements, a negative `k` keeps the last `-k` (clamped). -/
def pySliceFrom (k : ℤ) (l : List α) : List α :=
  if k < 0 then l.drop ((l.length : ℤ) + k).toNat else l.drop k.toNat

/-- Pointwise combination of three lists, used for `np.concatenate(axis=1)`. -/
def zipWith3 (f : α → β → γ → δ) : List α → List β → List γ → List δ
  | a :: as, b :: bs, c :: cs => f a b c :: zipWith3 f as bs cs
  | _, _, _ => []

/-- Minimum of a list of rationals (`np.min` over one column; 0 on the empty
column, which sklearn never reaches because fit on empty data raises). -/
def listMin : List ℚ → ℚ
  | [] => 0
  | x :: xs => xs.foldl min x

/-- Maximum of a list of rationals (`np.max` over one column). -/
def listMax : List ℚ → ℚ
  | [] => 0
  | x :: xs => xs.foldl max x

/-- Mean of a list of rationals (`np.mean`; 0 on the empty list). -/
def qmean (l : List ℚ) : ℚ := l.sum / l.length

/-- Population variance of a list of rationals (`np.var` with ddof 0, the
statistic sklearn's StandardScaler stores as var_). -/
def qvar (l : List ℚ) : ℚ := (l.map (fun x => (x - qmean l) ^ 2)).sum / l.length

/-- Ascending list of the distinct values of `l`: the index of a pandas
groupby over `l`, and the category order of `pd.get_dummies`. -/
def uniqueSorted (l : List ℕ) : List ℕ := List.insertionSort (· ≤ ·) l.dedup

/-- A parsed timestamp of the hourly series (the fields the module reads). -/
structure DT where
  year : ℕ
  month : ℕ
  day : ℕ
  hour : ℕ
deriving DecidableEq

/-- One row of the gefcom2014 frame: parsed datetime, LOAD, and w1..w25. -/
structure Row where
  dt : DT
  load : ℚ
  temps : List ℚ
deriving DecidableEq

/-- A cell of the pandas frame: a numeric value or a timestamp. -/
inductive Cell where
  | q (x : ℚ)
  | t (d : DT)
deriving DecidableEq

/-- Fitted state of an sklearn scaler: mean_ and var_ for StandardScaler,
data_min_ and data_max_ for MinMaxScaler. -/
inductive Scaler where
  | standard (mean var : ℚ)
  | minmax (dmin dmax : ℚ)
deriving DecidableEq

/-- The guard sklearn applies to a scale of zero before dividing
(preprocessing._handle_zeros_in_scale): a zero scale becomes 1. -/
noncomputable def handleZeros (x : ℝ) : ℝ := if x = 0 then 1 else x

/-- Column transform of a fitted scaler: StandardScaler divides the centred
value by handle_zeros(sqrt var_); MinMaxScaler multiplies by
scale_ = 1 / handle_zeros(data_max_ - data_min_) and shifts by
min_ = -data_min_ * scale_ (feature range (0, 1)). -/
noncomputable def Scaler.transformVal : Scaler → ℝ → ℝ
  | .standard m v, x => (x - (m : ℝ)) / handleZeros (Real.sqrt (v : ℝ))
  | .minmax a b, x =>
      x * (1 / handleZeros ((b : ℝ) - (a : ℝ))) +
        (0 - (a : ℝ) * (1 / handleZeros ((b : ℝ) - (a : ℝ))))

/-- Column inverse transform of a fitted scaler (sklearn inverse_transform). -/
noncomputable def Scaler.inverseVal : Scaler → ℝ → ℝ
  | .standard m v, x => x * handleZeros (Real.sqrt (v : ℝ)) + (m : ℝ)
  | .minmax a b, x =>
      (x - (0 - (a : ℝ) * (1 / handleZeros ((b : ℝ) - (a : ℝ))))) /
        (1 / handleZeros ((b : ℝ) - (a : ℝ)))

/-- Columns of a 2-D row-major array (sklearn fits one scaler per column).
The column count is the width of the first row; the arrays the module builds
are rectangular. -/
def columns (X : List (List ℚ)) : List (List ℚ) :=
  match X with
  | [] => []
  | r :: _ => (List.range r.length).map (fun j => X.map (fun row => row.getD j 0))

/-- Fit one scaler column: MinMaxScaler when scaler_type is given as minmax,
StandardScaler otherwise. -/
def fitCol (scaler_type : Option String) (col : List ℚ) : Scaler :=
  if scaler_type = some "minmax" then .minmax (listMin col) (listMax col)
  else .standard (qmean col) (qvar col)

/-- Embedding of `transform(X, scaler=None, scaler_type=None)`: when no scaler
is passed a new one is fitted on `X` (per column), then `X` is transformed
with it; the fitted or given scaler is returned together with the result. -/
noncomputable def transform (X : List (List ℚ)) (scaler : Option (List Scaler))
    (scaler_type : Option String) : List Scaler × List (List ℝ) :=
  let sc := match scaler with
    | some s => s
    | none => (columns X).map (fitCol scaler_type)
  (sc, X.map (fun row => List.zipWith Scaler.transformVal sc (row.map (fun x : ℚ => (x : ℝ)))))

/-- Embedding of `inverse_transform(X, scaler, trend=None)`: inverse scaling of
every row (the float32 cast of the source is the identity on exact reals),
then elementwise addition of the trend when one is given. -/
noncomputable def inverse_transform (X : List (List ℝ)) (scaler : List Scaler)
    (trend : Option (List (List ℝ))) : List (List ℝ) :=
  let Y := X.map (fun row => List.zipWith Scaler.inverseVal scaler row)
  match trend with
  | none => Y
  | some t => List.zipWith (List.zipWith (· + ·)) Y t

/-- Mean LOAD of the rows of the training prefix `df[:train_len]` whose hour
equals `h` (the pandas groupby mean the detrender precomputes). -/
def hourMean (df : List Row) (train_len : ℤ) (h : ℕ) : ℚ :=
  let xs := ((pyTake train_len df).filter (fun r => r.dt.hour == h)).map (·.load)
  xs.sum / (xs.length : ℚ)

/-- Embedding of `apply_detrend(df, train_len)`: per-hour mean LOAD over the
training prefix, then one pass per observed hour (ascending, the groupby
index order) subtracting that mean from every matching row of the full series
and recording it in the trend column (initially all None); returns the
detrended rows and the trend column without its last element
(`df_copy.trend.values[:-1]`). Hours never observed in the prefix leave
their rows untouched and their trend entries None. -/
def apply_detrend (df : List Row) (train_len : ℤ) : List Row × List (Option ℚ) :=
  let hs := uniqueSorted ((pyTake train_len df).map (·.dt.hour))
  let res := hs.foldl
    (fun acc h => acc.map (fun p =>
      if p.1.dt.hour = h then
        ({ p.1 with load := p.1.load - hourMean df train_len h }, some (hourMean df train_len h))
      else p))
    (df.map (fun r => (r, (none : Option ℚ))))
  (res.map Prod.fst, (res.map Prod.snd).dropLast)

/-- A row of the frame inside `add_exogenous_variables`, after the derived
calendar columns year/month/day/hour and the holiday flag were appended to
the original columns (kept in `base`). -/
structure ExRow where
  base : Row
  year : ℕ
  month : ℕ
  day : ℕ
  hour : ℕ
  holiday : ℕ
deriving DecidableEq

/-- Derivation of the calendar columns from the datetime column, with the
holiday column initialised to 0 (the state of the frame just before
`_add_holidays` runs). -/
def mkExRow (r : Row) : ExRow :=
  ⟨r, r.dt.year, r.dt.month, r.dt.day, r.dt.hour, 0⟩

/-- Index labels (positions, the frame has the default range index) of the
rows satisfying `p`, starting the count at `i`: the `.index.tolist()` of a
boolean selection. -/
def idxWhere (p : ExRow → Bool) : List ExRow → ℕ → List ℕ
  | [], _ => []
  | r :: rs, i => (if p r then [i] else []) ++ idxWhere p rs (i + 1)

/-- Embedding of `df.loc[idx, holiday] = 1`: set the holiday flag of every
row whose label is in `idx`, counting labels from `i`. -/
def setHoliday (idx : List ℕ) : List ExRow → ℕ → List ExRow
  | [], _ => []
  | r :: rs, i =>
      (if i ∈ idx then { r with holiday := 1 } else r) :: setHoliday idx rs (i + 1)

/-- Embedding of _add_holidays: collect the labels of the rows on the four
fixed (day, month) dates, then set their holiday flag to 1. -/
def _add_holidays (df : List ExRow) : List ExRow :=
  let idx :=
    idxWhere (fun r => r.day == 1 && r.month == 1) df 0 ++
    idxWhere (fun r => r.day == 4 && r.month == 7) df 0 ++
    idxWhere (fun r => r.day == 11 && r.month == 11) df 0 ++
    idxWhere (fun r => r.day == 25 && r.month == 12) df 0
  setHoliday idx df 0

/-- Cells of the original (pre-augmentation) columns of one row, in frame
order: LOAD, w1..w25, datetime (the columns `pd.get_dummies` keeps in place,
the encoded columns being removed and the dummy columns appended after). -/
def cellsOf (r : Row) : List Cell :=
  Cell.q r.load :: (r.temps.map Cell.q ++ [Cell.t r.dt])

/-- One-hot indicator row of value `v` against the ascending category list. -/
def oneHotRow (v : ℕ) (cats : List ℕ) : List ℚ :=
  cats.map (fun c => if v = c then 1 else 0)

/-- The dummy block `pd.get_dummies` appends for one row: indicators of
year, month, day, hour, holiday against the categories observed in the
whole frame, each category list ascending. -/
def exDummies (df : List ExRow) (r : ExRow) : List ℚ :=
  oneHotRow r.year (uniqueSorted (df.map (·.year))) ++
  oneHotRow r.month (uniqueSorted (df.map (·.month))) ++
  oneHotRow r.day (uniqueSorted (df.map (·.day))) ++
  oneHotRow r.hour (uniqueSorted (df.map (·.hour))) ++
  oneHotRow r.holiday (uniqueSorted (df.map (·.holiday)))

/-- Total number of dummy columns `pd.get_dummies` appends for the frame. -/
def dummyWidth (df : List ExRow) : ℕ :=
  (uniqueSorted (df.map (·.year))).length +
  (uniqueSorted (df.map (·.month))).length +
  (uniqueSorted (df.map (·.day))).length +
  (uniqueSorted (df.map (·.hour))).length +
  (uniqueSorted (df.map (·.holiday))).length

/-- Column count of the augmented frame (`df.shape[1]`): original columns
plus the five derived columns, read off the first row. -/
def dfShape1 (df : List ExRow) : ℕ :=
  match df with
  | [] => 5
  | r :: _ => (cellsOf r.base).length + 5

/-- Column count of the encoded frame (`ex_feat.shape[1]`): original columns
minus the five encoded ones plus the dummy block. -/
def exShape1 (df : List ExRow) : ℕ :=
  match df with
  | [] => 0
  | r :: _ => (cellsOf r.base).length + dummyWidth df

/-- Values of one row of the encoded frame (`ex_feat.values`): the kept
original cells followed by the dummy block. -/
def exRowValues (df : List ExRow) (r : ExRow) : List Cell :=
  cellsOf r.base ++ (exDummies df r).map Cell.q

/-- Values of one row of the raw augmented frame (`df.values` in the
one_hot=False branch): original cells followed by the five derived columns. -/
def exRowRawValues (r : ExRow) : List Cell :=
  cellsOf r.base ++
    [Cell.q r.year, Cell.q r.month, Cell.q r.day, Cell.q r.hour, Cell.q r.holiday]

/-- Embedding of `add_exogenous_variables(df, one_hot)`: the temperature
matrix w1..w25 shifted by one row, and either the trailing slice
`ex_feat.values[:, -4 - (ex_feat.shape[1] - df.shape[1]):][1:]` of the
one-hot encoded frame, or the raw augmented frame values. -/
def add_exogenous_variables (df : List Row) (one_hot : Bool) :
    List (List ℚ) × List (List Cell) :=
  let X_temp := (df.map (·.temps)).drop 1
  let df2 := _add_holidays (df.map mkExRow)
  if one_hot then
    let k : ℤ := -4 - ((exShape1 df2 : ℤ) - (dfShape1 df2 : ℤ))
    (X_temp, ((df2.map (fun r => exRowValues df2 r)).map (pySliceFrom k)).drop 1)
  else
    (X_temp, df2.map exRowRawValues)

/-- Result of one split step: the train / valid-or-null / test pieces. -/
structure Split3 (α : Type) where
  train : α
  valid : Option α
  test : α

/-- Modelled from the spec: `dts.utils.split.simple_split` is repository code
that is not under src (section 4.4): a single contiguous split where test is
the last `test_len` rows, validation the `valid_len` rows before it (null when
`valid_len` is 0), and train the rows before that, truncated to `train_len`
when one is given. -/
def simple_split (x : List α) (train_len : Option ℕ) (valid_len test_len : ℕ) :
    Split3 (List α) :=
  let n := x.length
  let rest := x.take (n - test_len - valid_len)
  { train := match train_len with
      | none => rest
      | some t => rest.take t
    valid := if valid_len = 0 then none
      else some ((x.take (n - test_len)).drop (n - test_len - valid_len))
    test := x.drop (n - test_len) }

/-- Modelled from the spec: `dts.utils.split.multiple_splits` is repository
code that is not under src (section 4.4): fixed-length window pairs, one
training window of `train_len + valid_len` rows followed by a test window of
`test_len` rows per fold. -/
def multiple_splits (x : List α) (train_len valid_len test_len : ℕ) :
    Split3 (List (List α)) :=
  let step := train_len + valid_len + test_len
  let nfolds := if step = 0 then 0 else x.length / step
  { train := (List.range nfolds).map
      (fun f => (x.drop (f * step)).take (train_len + valid_len))
    valid := none
    test := (List.range nfolds).map
      (fun f => (x.drop (f * step + train_len + valid_len)).take test_len) }

/-- A split output held in the returned bundle: a 2-D array from the simple
strategy or a 3-D stack of windows from the multi strategy, with entries of
type `ε`. -/
inductive SplitRes (ε : Type) where
  | d2 (x : List (List ε))
  | d3 (x : List (List (List ε)))

/-- The dataset bundle `load_data` returns: the dict with keys train, test,
scaler and trend (trend is the two-element list that starts as (None, None)). -/
structure Bundle where
  train : Option (SplitRes ℝ)
  test : Option (SplitRes ℝ)
  scaler : Option (List Scaler)
  trend : List (Option (SplitRes (Option ℚ)))

/-- Hourly sampling: module constant SAMPLES_PER_DAY. -/
def SAMPLES_PER_DAY : ℕ := 24

/-- Embedding of `load_data(...)` on the recompute path (use_prebuilt=False;
the prebuilt branch only consults the on-disk cache, an external collaborator,
and on a miss recurses once into this path). `df` is the frame the external
`load_dataset()` collaborator returns. Stages, as in the source: replace a
zero valid_len by a tenth of train_len; reject an unknown split_type before
the data is touched; optionally detrend (three permitted split_type/is_train
combinations, each with its own prefix length and trend split, every other
combination raises); build the one-step-shifted load column; when
preprocessing is on, fit the standard scaler on the first train_len feature
rows, transform everything, optionally append the min-max scaled temperature
block and the one-hot calendar block, split, and assemble the bundle; when
preprocessing is off the source falls off the end of the function and returns
None. The multi/train split applies 3-D indexing `x[0][:, :train_len, :]` to
the first row of the 2-D feature matrix, a numpy IndexError. -/
noncomputable def load_data (fill_nan : Option String)
    (preprocessing detrend exogenous_vars : Bool)
    (train_len test_len valid_len : ℕ) (split_type : String) (is_train : Bool)
    (df : List Row) : Except String (Option Bundle) :=
  let valid_len := if valid_len = 0 then train_len / 10 else valid_len
  if split_type = "simple" ∨ split_type = "multi" ∨ split_type = "default" then
    let detrended : Except String (List Row × List (Option (SplitRes (Option ℚ)))) :=
      if detrend then
        if split_type = "default" ∧ is_train = false then
          let p := apply_detrend df ((df.length : ℤ) - 365 * SAMPLES_PER_DAY)
          let tv := p.2.map (fun v => [v])
          let s := simple_split tv none 0 (df.length / 10)
          .ok (p.1, [some (.d2 s.train), some (.d2 s.test)])
        else if split_type = "simple" ∧ is_train = true then
          let p := apply_detrend df (train_len : ℤ)
          let tv := p.2.map (fun v => [v])
          let s0 := simple_split tv none 0 test_len
          let s := simple_split s0.train (some train_len) 0 valid_len
          .ok (p.1, [some (.d2 s.train), some (.d2 s.test)])
        else if split_type = "simple" then
          let p := apply_detrend df ((train_len : ℤ) + (valid_len : ℤ))
          let tv := p.2.map (fun v => [v])
          let s := simple_split tv none 0 test_len
          .ok (p.1, [some (.d2 s.train), some (.d2 s.test)])
        else .error "Detrend cannot be applied with this type of split."
      else .ok (df, [none, none])
    match detrended with
    | .error e => .error e
    | .ok (df', trendv) =>
      let X : List (List ℚ) := ((df'.map (·.load)).dropLast).map (fun v => [v])
      if preprocessing then
        let scaler := (transform (X.take train_len) none none).1
        let X1 := (transform X (some scaler) none).2
        let XF : List (List ℝ) :=
          if exogenous_vars then
            let p := add_exogenous_variables df' true
            let scT := (transform (p.1.take train_len) none (some "minmax")).1
            let Xt := (transform p.1 (some scT) none).2
            zipWith3 (fun a b c => a ++ b ++ c.map (fun cell =>
              match cell with
              | Cell.q x => (x : ℝ)
              | Cell.t _ => 0)) X1 Xt p.2
          else X1
        let dataE : Except String (Option (SplitRes ℝ) × Option (SplitRes ℝ)) :=
          if split_type = "simple" then
            if is_train then
              let s0 := simple_split XF none 0 test_len
              let s := simple_split s0.train (some train_len) 0 valid_len
              .ok (some (.d2 s.train), some (.d2 s.test))
            else
              let s := simple_split XF none 0 test_len
              .ok (some (.d2 s.train), some (.d2 s.test))
          else if split_type = "multi" then
            if is_train then
              .error "too many indices for array"
            else
              let s := multiple_splits XF (train_len + valid_len) 0 test_len
              .ok (some (.d3 s.train), some (.d3 s.test))
          else
            if is_train then
              let s0 := simple_split XF none 0 (df'.length / 10)
              let s := multiple_splits s0.train (5 * 31 * SAMPLES_PER_DAY) 0
                (31 * SAMPLES_PER_DAY)
              .ok (some (.d3 s.train), some (.d3 s.test))
            else
              let s := simple_split XF none 0 (df'.length / 10)
              .ok (some (.d2 s.train), some (.d2 s.test))
        match dataE with
        | .error e => .error e
        | .ok (tr, te) =>
            .ok (some { train := tr, test := te, scaler := some scaler, trend := trendv })
      else
        .ok none
  else
    .error (split_type ++ " is not a valid split type.")

/-- The fitted scaler state a `load_data` outcome carries: the scaler entry of
the returned bundle, none on an error or a missing bundle. -/
def bundleScaler : Except String (Option Bundle) → Option (List Scaler)
  | .ok (some b) => b.scaler
  | _ => none

theorem handleZeros_ne_zero (x : ℝ) : handleZeros x ≠ 0 := by
  unfold handleZeros
  split
  · exact one_ne_zero
  · assumption

theorem Scaler.inverseVal_transformVal (sc : Scaler) (x : ℝ) :
    sc.inverseVal (sc.transformVal x) = x := by
  cases sc with
  | standard m v =>
      simp only [Scaler.transformVal, Scaler.inverseVal]
      rw [div_mul_cancel₀ _ (handleZeros_ne_zero _)]
      ring
  | minmax a b =>
      simp only [Scaler.transformVal, Scaler.inverseVal]
      rw [add_sub_cancel_right]
      rw [mul_div_cancel_right₀]
      exact one_div_ne_zero (handleZeros_ne_zero _)

theorem zipWith_map_same (k : γ → δ → ε) (a : α → γ) (b : α → δ) (l : List α) :
    List.zipWith k (l.map a) (l.map b) = l.map (fun x => k (a x) (b x)) := by
  induction l with
  | nil => rfl
  | cons x t ih => simp [ih]

theorem foldl_map_gen (g : β → α → α) (hs : List β) (l : List α) :
    hs.foldl (fun acc h => acc.map (g h)) l =
      l.map (fun x => hs.foldl (fun y h => g h y) x) := by
  induction hs generalizing l with
  | nil => simp
  | cons h t ih =>
      simp only [List.foldl_cons]
      rw [ih, List.map_map]
      rfl

theorem mem_uniqueSorted (a : ℕ) (l : List ℕ) : a ∈ uniqueSorted l ↔ a ∈ l := by
  unfold uniqueSorted
  rw [(List.perm_insertionSort (· ≤ ·) l.dedup).mem_iff, List.mem_dedup]

theorem nodup_uniqueSorted (l : List ℕ) : (uniqueSorted l).Nodup :=
  (List.perm_insertionSort (· ≤ ·) l.dedup).nodup_iff.mpr (List.nodup_dedup l)

theorem foldl_detrendStep (μ : ℕ → ℚ) (hs : List ℕ) (hnd : hs.Nodup)
    (p : Row × Option ℚ) :
    hs.foldl (fun q h =>
        if q.1.dt.hour = h then
          ({ q.1 with load := q.1.load - μ h }, some (μ h)) else q) p =
      if p.1.dt.hour ∈ hs then
        ({ p.1 with load := p.1.load - μ p.1.dt.hour }, some (μ p.1.dt.hour))
      else p := by
  induction hs generalizing p with
  | nil => simp
  | cons h t ih =>
      obtain ⟨hh, ht⟩ := List.nodup_cons.mp hnd
      by_cases hc : p.1.dt.hour = h
      · simp only [List.foldl_cons, hc, if_pos rfl, List.mem_cons, true_or, if_true]
        rw [ih ht]
        have : h ∉ t := hh
        simp [hc, this]
      · simp only [List.foldl_cons, if_neg hc, ih ht, List.mem_cons]
        simp [hc]

theorem apply_detrend_eq (df : List Row) (n : ℤ) :
    apply_detrend df n =
      (df.map (fun r =>
          if r.dt.hour ∈ (pyTake n df).map (fun q => q.dt.hour) then
            { r with load := r.load - hourMean df n r.dt.hour } else r),
       (df.map (fun r =>
          if r.dt.hour ∈ (pyTake n df).map (fun q => q.dt.hour) then
            some (hourMean df n r.dt.hour) else (none : Option ℚ))).dropLast) := by
  have hchar : ∀ r : Row,
      (uniqueSorted ((pyTake n df).map (fun q => q.dt.hour))).foldl
        (fun y h =>
          if y.1.dt.hour = h then
            ({ y.1 with load := y.1.load - hourMean df n h }, some (hourMean df n h))
          else y) (r, (none : Option ℚ)) =
      if r.dt.hour ∈ (pyTake n df).map (fun q => q.dt.hour) then
        ({ r with load := r.load - hourMean df n r.dt.hour },
          some (hourMean df n r.dt.hour))
      else (r, none) := by
    intro r
    rw [foldl_detrendStep (hourMean df n) _ (nodup_uniqueSorted _)]
    simp [mem_uniqueSorted]
  show (let hs := uniqueSorted ((pyTake n df).map (fun r => r.dt.hour));
      let res := hs.foldl
        (fun acc h => acc.map (fun p =>
          if p.1.dt.hour = h then
            ({ p.1 with load := p.1.load - hourMean df n h }, some (hourMean df n h))
          else p))
        (df.map (fun r => (r, (none : Option ℚ))))
      (res.map Prod.fst, (res.map Prod.snd).dropLast)) = _
  simp only []
  rw [foldl_map_gen, List.map_map]
  simp only [Function.comp_def, hchar, List.map_map]
  simp only [Prod.mk.injEq]
  constructor
  · refine List.map_congr_left ?_
    intro r _
    by_cases hm : r.dt.hour ∈ (pyTake n df).map (fun q => q.dt.hour) <;> simp [hm]
  · refine congrArg List.dropLast (List.map_congr_left ?_)
    intro r _
    by_cases hm : r.dt.hour ∈ (pyTake n df).map (fun q => q.dt.hour) <;> simp [hm]

theorem mem_idxWhere (p : ExRow → Bool) :
    ∀ (l : List ExRow) (j i : ℕ),
      i ∈ idxWhere p l j ↔ ∃ r, j ≤ i ∧ l.get? (i - j) = some r ∧ p r := by
  intro l
  induction l with
  | nil => intro j i; simp [idxWhere]
  | cons r rs ih =>
      intro j i
      simp only [idxWhere, List.mem_append]
      constructor
      · rintro (hmem | hmem)
        · refine ⟨r, ?_, ?_, ?_⟩
          · by_cases hp : p r <;> simp [hp] at hmem
            omega
          · by_cases hp : p r <;> simp [hp] at hmem
            simp [hmem]
          · by_cases hp : p r <;> simp [hp] at hmem
            exact hp
        · obtain ⟨r', hj, hget, hp⟩ := (ih (j + 1) i).mp hmem
          refine ⟨r', by omega, ?_, hp⟩
          have : i - j = (i - (j + 1)) + 1 := by omega
          rw [this]
          simpa using hget
      · rintro ⟨r', hj, hget, hp⟩
        rcases Nat.eq_or_lt_of_le hj with heq | hlt
        · left
          subst heq
          simp at hget
          subst hget
          simp [hp]
        · right
          refine (ih (j + 1) i).mpr ⟨r', by omega, ?_, hp⟩
          have : i - j = (i - (j + 1)) + 1 := by omega
          rw [this] at hget
          simpa using hget

theorem setHoliday_get (idx : List ℕ) :
    ∀ (l : List ExRow) (j k : ℕ),
      (setHoliday idx l j).get? k =
        (l.get? k).map (fun r => if (j + k) ∈ idx then { r with holiday := 1 } else r) := by
  intro l
  induction l with
  | nil => intro j k; simp [setHoliday]
  | cons r rs ih =>
      intro j k
      cases k with
      | zero => simp [setHoliday]
      | succ k =>
          simp only [setHoliday, List.get?_cons_succ, ih (j + 1) k]
          have : j + 1 + k = j + (k + 1) := by omega
          rw [this]

theorem _add_holidays_eq (l : List ExRow) :
    _add_holidays l = l.map (fun r =>
      if (r.day = 1 ∧ r.month = 1) ∨ (r.day = 4 ∧ r.month = 7) ∨
         (r.day = 11 ∧ r.month = 11) ∨ (r.day = 25 ∧ r.month = 12) then
        { r with holiday := 1 } else r) := by
  apply List.ext_get?
  intro k
  unfold _add_holidays
  rw [setHoliday_get, List.get?_map]
  cases hget : l.get? k with
  | none => rfl
  | some r =>
      simp only [Option.map_some']
      have huniq : ∀ (p : ExRow → Bool),
          k ∈ idxWhere p l 0 ↔ p r := by
        intro p
        rw [mem_idxWhere]
        constructor
        · rintro ⟨r', -, hget', hp⟩
          simp only [Nat.sub_zero] at hget'
          rw [hget] at hget'
          cases hget'
          exact hp
        · intro hp
          exact ⟨r, Nat.zero_le _, by simpa using hget, hp⟩
      simp only [Nat.zero_add, List.mem_append, huniq]
      by_cases h1 : r.day = 1 ∧ r.month = 1 <;>
        by_cases h2 : r.day = 4 ∧ r.month = 7 <;>
          by_cases h3 : r.day = 11 ∧ r.month = 11 <;>
            by_cases h4 : r.day = 25 ∧ r.month = 12 <;>
              simp [h1, h2, h3, h4]

theorem drop_append_len (a b : List α) (n : ℕ) :
    (a ++ b).drop (a.length + n) = b.drop n := by
  induction a with
  | nil => simp
  | cons x t ih => simpa [Nat.succ_add] using ih

theorem map_drop_comm (f : α → β) (l : List α) (n : ℕ) :
    (l.map f).drop n = (l.drop n).map f := by
  induction l generalizing n with
  | nil => simp
  | cons x t ih =>
      cases n with
      | zero => rfl
      | succ n => simpa using ih n

theorem exDummies_length (df : List ExRow) (r : ExRow) :
    (exDummies df r).length = dummyWidth df := by
  simp [exDummies, dummyWidth, oneHotRow]
  omega

theorem uniqueSorted_ne_nil {l : List ℕ} (h : l ≠ []) : uniqueSorted l ≠ [] := by
  cases l with
  | nil => exact absurd rfl h
  | cons x t =>
      intro habs
      have : x ∈ uniqueSorted (x :: t) := (mem_uniqueSorted x (x :: t)).mpr (by simp)
      rw [habs] at this
      exact absurd this (List.not_mem_nil x)

theorem dummyWidth_ge (df : List ExRow) (h : df ≠ []) : 5 ≤ dummyWidth df := by
  have hmap : ∀ f : ExRow → ℕ, 1 ≤ (uniqueSorted (df.map f)).length := by
    intro f
    have : df.map f ≠ [] := by simpa using h
    have := uniqueSorted_ne_nil this
    exact List.length_pos.mpr this
  unfold dummyWidth
  have h1 := hmap (fun r => r.year)
  have h2 := hmap (fun r => r.month)
  have h3 := hmap (fun r => r.day)
  have h4 := hmap (fun r => r.hour)
  have h5 := hmap (fun r => r.holiday)
  omega

theorem _add_holidays_base (l : List ExRow) :
    (_add_holidays l).map (fun r => r.base) = l.map (fun r => r.base) := by
  rw [_add_holidays_eq, List.map_map]
  apply List.map_congr_left
  intro r _
  by_cases hc : (r.day = 1 ∧ r.month = 1) ∨ (r.day = 4 ∧ r.month = 7) ∨
      (r.day = 11 ∧ r.month = 11) ∨ (r.day = 25 ∧ r.month = 12) <;>
    simp [hc]

theorem map_dropLast_comm (f : α → β) (l : List α) :
    (l.map f).dropLast = (l.dropLast).map f := by
  induction l with
  | nil => rfl
  | cons x t ih =>
      cases t with
      | nil => rfl
      | cons y s => simpa using ih

theorem zipWith_inv_trans (sc : List Scaler) (row : List ℝ)
    (h : row.length = sc.length) :
    List.zipWith Scaler.inverseVal sc (List.zipWith Scaler.transformVal sc row) = row := by
  induction sc generalizing row with
  | nil => cases row with
      | nil => rfl
      | cons x xs => simp at h
  | cons s t ih =>
      cases row with
      | nil => simp at h
      | cons x xs =>
          simp only [List.zipWith_cons_cons, Scaler.inverseVal_transformVal]
          rw [ih xs (by simpa using h)]

theorem core_roundtrip_col (st : Option String) (mu : ℕ → ℚ) (l : List Row) :
    inverse_transform
        ((transform (l.map (fun r => [r.load - mu r.dt.hour])) none st).2)
        ((transform (l.map (fun r => [r.load - mu r.dt.hour])) none st).1)
        (some (l.map (fun r => [((mu r.dt.hour : ℚ) : ℝ)]))) =
      l.map (fun r => [((r.load : ℚ) : ℝ)]) := by
  cases l with
  | nil => rfl
  | cons r0 t0 =>
      obtain ⟨σ, hσ⟩ : ∃ σ,
          (transform ((r0 :: t0).map (fun r => [r.load - mu r.dt.hour])) none st).1 = [σ] :=
        ⟨_, rfl⟩
      have h2 : (transform ((r0 :: t0).map (fun r => [r.load - mu r.dt.hour])) none st).2 =
          ((r0 :: t0).map (fun r => [r.load - mu r.dt.hour])).map
            (fun row => List.zipWith Scaler.transformVal
              ((transform ((r0 :: t0).map (fun r => [r.load - mu r.dt.hour])) none st).1)
              (row.map (fun x : ℚ => (x : ℝ)))) := rfl
      rw [hσ] at h2
      rw [hσ, h2, List.map_map]
      simp only [inverse_transform, List.map_map]
      rw [zipWith_map_same]
      apply List.map_congr_left
      intro r _
      simp only [Function.comp_apply, List.map_cons, List.map_nil, List.zipWith_cons_cons,
        List.zipWith_nil_right, List.zipWith_nil_left, Scaler.inverseVal_transformVal]
      have : ((r.load - mu r.dt.hour : ℚ) : ℝ) + ((mu r.dt.hour : ℚ) : ℝ) = ((r.load : ℚ) : ℝ) := by
        push_cast
        ring
      simp [this]

theorem detrend_loads_obs (rows : List Row) (n : ℤ)
    (hobs : ∀ r ∈ rows, r.dt.hour ∈ (pyTake n rows).map (fun q => q.dt.hour)) :
    (apply_detrend rows n).1.map (fun r => r.load) =
      rows.map (fun r => r.load - hourMean rows n r.dt.hour) ∧
    (apply_detrend rows n).2 =
      (rows.map (fun r => some (hourMean rows n r.dt.hour))).dropLast := by
  rw [apply_detrend_eq]
  constructor
  · rw [List.map_map]
    apply List.map_congr_left
    intro r hr
    simp only [Function.comp_apply, if_pos (hobs r hr)]
  · exact congrArg List.dropLast
      (List.map_congr_left (fun r hr => by rw [if_pos (hobs r hr)]))

/-- C2: when detrending was applied with the matching trend vector (every hour
of the series observed in the training prefix, so every row carries a trend
value), inverse-transforming the scaled detrended load column with the
scaler that `transform` fitted on it and with the returned trend vector adds
the trend back after inverse scaling and reconstructs the original-scale
series exactly. -/
theorem detrend_transform_inverse_reconstructs (rows : List Row) (n : ℤ)
    (st : Option String)
    (hobs : ∀ r ∈ rows, r.dt.hour ∈ (pyTake n rows).map (fun q => q.dt.hour)) :
    inverse_transform
        ((transform ((((apply_detrend rows n).1.map (fun r => r.load)).dropLast).map
          (fun v => [v])) none st).2)
        ((transform ((((apply_detrend rows n).1.map (fun r => r.load)).dropLast).map
          (fun v => [v])) none st).1)
        (some ((apply_detrend rows n).2.map (fun o => [((o.getD 0 : ℚ) : ℝ)]))) =
      ((rows.map (fun r => r.load)).dropLast).map (fun v => [((v : ℚ) : ℝ)]) := by
  obtain ⟨h1, h2⟩ := detrend_loads_obs rows n hobs
  rw [h1, h2]
  rw [map_dropLast_comm, map_dropLast_comm, map_dropLast_comm]
  rw [List.map_map, List.map_map, List.map_map]
  have hcore := core_roundtrip_col st (hourMean rows n) rows.dropLast
  simpa [Function.comp_def] using hcore

/-- C3: for a non-empty rectangular array X and the scaler that `transform`
fitted on X, inverse-transforming the transformed values with no trend gives
back X exactly (floating-point tolerance is exact equality in this model). -/
theorem transform_inverse_transform_roundtrip (X : List (List ℚ)) (st : Option String)
    (w : ℕ) (hne : X ≠ []) (hw : ∀ r ∈ X, r.length = w) :
    inverse_transform ((transform X (some ((transform X none st).1)) none).2)
      ((transform X none st).1) none =
      X.map (fun row => row.map (fun x : ℚ => (x : ℝ))) := by
  have hsclen : ((transform X none st).1).length = w := by
    obtain ⟨r0, t0, rfl⟩ := List.exists_cons_of_ne_nil hne
    show ((columns (r0 :: t0)).map (fitCol st)).length = w
    rw [List.length_map]
    show ((List.range r0.length).map _).length = w
    rw [List.length_map, List.length_range]
    exact hw r0 (List.mem_cons_self _ _)
  have h2 : (transform X (some ((transform X none st).1)) none).2 =
      X.map (fun row => List.zipWith Scaler.transformVal ((transform X none st).1)
        (row.map (fun x : ℚ => (x : ℝ)))) := rfl
  rw [h2]
  simp only [inverse_transform, List.map_map]
  apply List.map_congr_left
  intro row hrow
  simp only [Function.comp_apply]
  apply zipWith_inv_trans
  rw [List.length_map, hw row hrow, hsclen]

theorem pySliceFrom_exRow (df2 : List ExRow) (r : ExRow) (w : ℕ)
    (hbase : (cellsOf r.base).length = w + 2)
    (hshape_df : dfShape1 df2 = w + 7)
    (hshape_ex : exShape1 df2 = w + 2 + dummyWidth df2)
    (hD : 5 ≤ dummyWidth df2) :
    pySliceFrom (-4 - ((exShape1 df2 : ℤ) - (dfShape1 df2 : ℤ))) (exRowValues df2 r) =
      ((exDummies df2 r).drop 1).map Cell.q := by
  rw [hshape_df, hshape_ex]
  have hk : (-4 - (((w + 2 + dummyWidth df2 : ℕ) : ℤ) - ((w + 7 : ℕ) : ℤ))) =
      1 - (dummyWidth df2 : ℤ) := by
    push_cast
    ring
  rw [hk]
  unfold pySliceFrom
  rw [if_pos (by omega : (1 : ℤ) - (dummyWidth df2 : ℤ) < 0)]
  have hlen : (exRowValues df2 r).length = (w + 2) + dummyWidth df2 := by
    simp [exRowValues, hbase, exDummies_length]
  rw [hlen]
  have htn : ((((w + 2) + dummyWidth df2 : ℕ) : ℤ) + (1 - (dummyWidth df2 : ℤ))).toNat
      = w + 3 := by
    omega
  rw [htn]
  unfold exRowValues
  have hsplit : w + 3 = (cellsOf r.base).length + 1 := by omega
  rw [hsplit, drop_append_len, ← map_drop_comm]

/-- C5 (amended): with one_hot=True the second matrix is the trailing
`4 + (ex_feat.shape[1] - df.shape[1])` columns of the encoded frame with the
first row dropped; because the dummy block has `D` columns and the slice keeps
`D - 1`, this is every newly-added one-hot column except the first (the first
year-category indicator), not the whole one-hot block. With one_hot=False the
raw augmented frame values are returned. The first matrix is the temperature
block shifted by one row. -/
theorem add_exogenous_one_hot_slice_drops_first_dummy
    (df : List Row) (w : ℕ) (hne : df ≠ []) (hw : ∀ r ∈ df, r.temps.length = w) :
    (add_exogenous_variables df true).1 = (df.map (fun r => r.temps)).drop 1 ∧
    (add_exogenous_variables df true).2 =
      ((_add_holidays (df.map mkExRow)).map (fun r =>
        ((exDummies (_add_holidays (df.map mkExRow)) r).drop 1).map Cell.q)).drop 1 ∧
    (add_exogenous_variables df false).2 =
      (_add_holidays (df.map mkExRow)).map exRowRawValues := by
  refine ⟨rfl, ?_, rfl⟩
  have hbase : ∀ r ∈ _add_holidays (df.map mkExRow), (cellsOf r.base).length = w + 2 := by
    intro r hr
    rw [_add_holidays_eq] at hr
    simp only [List.map_map, List.mem_map] at hr
    obtain ⟨r0, hr0, heq⟩ := hr
    have hb : r.base = r0 := by
      subst heq
      by_cases hc : (r0.dt.day = 1 ∧ r0.dt.month = 1) ∨ (r0.dt.day = 4 ∧ r0.dt.month = 7) ∨
          (r0.dt.day = 11 ∧ r0.dt.month = 11) ∨ (r0.dt.day = 25 ∧ r0.dt.month = 12) <;>
        simp [Function.comp_apply, mkExRow, hc]
    rw [hb]
    simp [cellsOf, hw r0 hr0]
  have hlen2 : (_add_holidays (df.map mkExRow)).length = df.length := by
    rw [_add_holidays_eq]
    simp
  have hne2 : _add_holidays (df.map mkExRow) ≠ [] := by
    intro habs
    rw [habs] at hlen2
    exact hne (List.length_eq_zero.mp hlen2.symm)
  have hD : 5 ≤ dummyWidth (_add_holidays (df.map mkExRow)) :=
    dummyWidth_ge _ hne2
  obtain ⟨r2, t2, hcons⟩ := List.exists_cons_of_ne_nil hne2
  have hr2mem : r2 ∈ _add_holidays (df.map mkExRow) := by
    rw [hcons]
    exact List.mem_cons_self _ _
  have hshape_df : dfShape1 (_add_holidays (df.map mkExRow)) = w + 7 := by
    rw [hcons]
    show (cellsOf r2.base).length + 5 = w + 7
    have := hbase r2 hr2mem
    omega
  have hshape_ex : exShape1 (_add_holidays (df.map mkExRow)) =
      w + 2 + dummyWidth (_add_holidays (df.map mkExRow)) := by
    rw [hcons]
    show (cellsOf r2.base).length + dummyWidth (r2 :: t2) = w + 2 + dummyWidth (r2 :: t2)
    have := hbase r2 hr2mem
    omega
  have hmain : (add_exogenous_variables df true).2 =
      (((_add_holidays (df.map mkExRow)).map (fun r =>
        exRowValues (_add_holidays (df.map mkExRow)) r)).map
        (pySliceFrom (-4 - ((exShape1 (_add_holidays (df.map mkExRow)) : ℤ) -
          (dfShape1 (_add_holidays (df.map mkExRow)) : ℤ))))).drop 1 := rfl
  rw [hmain, List.map_map]
  refine congrArg (List.drop 1) (List.map_congr_left ?_)
  intro r hr
  exact pySliceFrom_exRow _ r w (hbase r hr) hshape_df hshape_ex hD

/-- C6: apply_detrend subtracts from every row of the full series the
hour-of-day mean computed over only the first train_len rows, leaves rows
whose hour was never observed in the training prefix unmodified, returns a
trend vector holding the subtracted mean per row (None where nothing was
subtracted) trimmed to exclude the final element (length one less than the
series), and is deterministic. -/
theorem apply_detrend_characterization (df : List Row) (n : ℤ) :
    (apply_detrend df n).1 = df.map (fun r =>
        if r.dt.hour ∈ (pyTake n df).map (fun q => q.dt.hour) then
          { r with load := r.load - hourMean df n r.dt.hour } else r) ∧
    (apply_detrend df n).2 = (df.map (fun r =>
        if r.dt.hour ∈ (pyTake n df).map (fun q => q.dt.hour) then
          some (hourMean df n r.dt.hour) else (none : Option ℚ))).dropLast ∧
    (apply_detrend df n).1.length = df.length ∧
    (apply_detrend df n).2.length = df.length - 1 ∧
    apply_detrend df n = apply_detrend df n := by
  rw [apply_detrend_eq]
  refine ⟨rfl, rfl, by simp, by simp, rfl⟩

/-- C7: on a frame whose holiday column is still all zero (its state right
before the holiday step runs inside add_exogenous_variables), _add_holidays
sets holiday = 1 on exactly the rows whose (day, month) is (1,1), (4,7),
(11,11) or (25,12) and holiday = 0 on every other row, with no dependence on
the year. -/
theorem add_holidays_flags_exactly_four_dates (df : List ExRow)
    (h0 : ∀ r ∈ df, r.holiday = 0) :
    _add_holidays df = df.map (fun r =>
      { r with holiday :=
        if (r.day = 1 ∧ r.month = 1) ∨ (r.day = 4 ∧ r.month = 7) ∨
           (r.day = 11 ∧ r.month = 11) ∨ (r.day = 25 ∧ r.month = 12) then 1 else 0 }) := by
  rw [_add_holidays_eq]
  apply List.map_congr_left
  intro r hr
  by_cases hc : (r.day = 1 ∧ r.month = 1) ∨ (r.day = 4 ∧ r.month = 7) ∨
      (r.day = 11 ∧ r.month = 11) ∨ (r.day = 25 ∧ r.month = 12)
  · simp [hc]
  · rw [if_neg hc, if_neg hc]
    have h' := h0 r hr
    cases r
    simp_all

/-- C10: the result of load_data is the same function of the data for every
value of fill_nan; the parameter is accepted (and documented in the source)
but never applied, so two calls differing only in fill_nan agree exactly. -/
theorem load_data_independent_of_fill_nan (f1 f2 : Option String)
    (preprocessing detrend exogenous_vars : Bool)
    (train_len test_len valid_len : ℕ) (split_type : String) (is_train : Bool)
    (df : List Row) :
    load_data f1 preprocessing detrend exogenous_vars train_len test_len valid_len
        split_type is_train df =
      load_data f2 preprocessing detrend exogenous_vars train_len test_len valid_len
        split_type is_train df := rfl

/-- C8: for every split_type outside simple / multi / default, load_data fails
with a configuration error whose message names the invalid value, and it does
so uniformly in the data (the same error for every df, so no data is ever
consulted) with no fallback to a default strategy. -/
theorem load_data_invalid_split_type_fails_fast (fn : Option String)
    (preprocessing detrend exogenous_vars : Bool)
    (train_len test_len valid_len : ℕ) (split_type : String) (is_train : Bool)
    (hbad : ¬(split_type = "simple" ∨ split_type = "multi" ∨ split_type = "default")) :
    ∀ df : List Row,
      load_data fn preprocessing detrend exogenous_vars train_len test_len valid_len
        split_type is_train df =
        .error (split_type ++ " is not a valid split type.") := by
  intro df
  simp only [load_data]
  rw [if_neg hbad]

/-- C9: in the recompute path with detrend requested, every split_type /
is_train combination other than the permitted ones (simple with any is_train,
default with is_train = false) fails with the detrend configuration error; in
particular multi with either mode, and default in training mode. -/
theorem load_data_detrend_invalid_combination_fails (fn : Option String)
    (preprocessing exogenous_vars : Bool)
    (train_len test_len valid_len : ℕ) (split_type : String) (is_train : Bool)
    (hbad : split_type = "multi" ∨ (split_type = "default" ∧ is_train = true)) :
    ∀ df : List Row,
      load_data fn preprocessing true exogenous_vars train_len test_len valid_len
        split_type is_train df =
        .error "Detrend cannot be applied with this type of split." := by
  intro df
  rcases hbad with h | ⟨h, hit⟩
  · subst h
    simp [load_data]
  · subst h hit
    simp [load_data]

/-- C4 (code evaluation): a configuration that passes the split-type and
detrend checks but has preprocessing disabled makes load_data fall off the
end of the function and produce None instead of the documented bundle. -/
theorem load_data_returns_none_without_preprocessing (fn : Option String)
    (exogenous_vars : Bool) (train_len test_len valid_len : ℕ) (df : List Row) :
    load_data fn false false exogenous_vars train_len test_len valid_len
      "simple" false df = .ok none := by
  simp [load_data]

theorem bundleScaler_load_data_no_detrend (fn : Option String) (exogenous_vars : Bool)
    (train_len test_len valid_len : ℕ) (split_type : String) (is_train : Bool)
    (df : List Row)
    (hs : split_type = "simple" ∨ split_type = "multi" ∨ split_type = "default") :
    bundleScaler (load_data fn true false exogenous_vars train_len test_len valid_len
        split_type is_train df) =
      if split_type = "multi" ∧ is_train = true then none
      else some ((transform ((((df.map (fun r => r.load)).dropLast).map
        (fun v => [v])).take train_len) none none).1) := by
  rcases hs with h | h | h <;> subst h <;> cases is_train <;>
    simp [load_data, bundleScaler]

/-- C1 (amended): with detrending disabled (and preprocessing on, prebuilt
off), the scaler state of the returned bundle is computed exclusively from the
load rows with index below train_len: two input frames agreeing on the loads
of their first train_len rows give identical scaler state, so changing any
row at index at least train_len never changes it. (With detrending enabled
this fails: the detrend prefix extends past train_len, see the
counterexample.) -/
theorem load_data_scaler_depends_only_on_train_prefix (fn : Option String)
    (exogenous_vars : Bool) (train_len test_len valid_len : ℕ)
    (split_type : String) (is_train : Bool) (df1 df2 : List Row)
    (h1 : train_len < df1.length) (h2 : train_len < df2.length)
    (hagree : (df1.take train_len).map (fun r => r.load) =
      (df2.take train_len).map (fun r => r.load)) :
    bundleScaler (load_data fn true false exogenous_vars train_len test_len valid_len
        split_type is_train df1) =
      bundleScaler (load_data fn true false exogenous_vars train_len test_len valid_len
        split_type is_train df2) := by
  have hXpre : ∀ d : List Row, train_len < d.length →
      ((((d.map (fun r => r.load)).dropLast).map (fun v => [v])).take train_len) =
        ((d.take train_len).map (fun r => r.load)).map (fun v => ([v] : List ℚ)) := by
    intro d hd
    rw [← List.map_take, List.dropLast_eq_take, List.take_take]
    have hle : train_len ≤ (d.map (fun r => r.load)).length - 1 := by
      simp only [List.length_map]
      omega
    rw [min_eq_left hle, ← List.map_take]
  by_cases hs : split_type = "simple" ∨ split_type = "multi" ∨ split_type = "default"
  · rw [bundleScaler_load_data_no_detrend fn exogenous_vars train_len test_len valid_len
        split_type is_train df1 hs,
      bundleScaler_load_data_no_detrend fn exogenous_vars train_len test_len valid_len
        split_type is_train df2 hs]
    by_cases hm : split_type = "multi" ∧ is_train = true
    · rw [if_pos hm, if_pos hm]
    · rw [if_neg hm, if_neg hm, hXpre df1 h1, hXpre df2 h2, hagree]
  · have herr : ∀ d : List Row,
        bundleScaler (load_data fn true false exogenous_vars train_len test_len valid_len
          split_type is_train d) = none := by
      intro d
      simp only [load_data]
      rw [if_neg hs]
      rfl
    rw [herr df1, herr df2]

theorem bundleScaler_load_data_detrend_simple_infer (fn : Option String)
    (exogenous_vars : Bool) (train_len test_len valid_len : ℕ) (df : List Row)
    (hvl : ¬valid_len = 0) :
    bundleScaler (load_data fn true true exogenous_vars train_len test_len valid_len
        "simple" false df) =
      some ((transform (((((apply_detrend df ((train_len : ℤ) + (valid_len : ℤ))).1.map
        (fun r => r.load)).dropLast).map (fun v => [v])).take train_len) none none).1) := by
  simp [load_data, bundleScaler, hvl]

/-- C1 counterexample: with detrending enabled (split_type simple, inference
mode) the detrend prefix is train_len + valid_len, so a row at index
train_len leaks into the fitted scaler: these two frames agree on their first
train_len = 1 rows yet produce different scaler states. -/
theorem load_data_scaler_detrend_leak_counterexample :
    (([⟨⟨2001, 1, 1, 5⟩, 0, []⟩, ⟨⟨2001, 1, 1, 5⟩, 0, []⟩,
        ⟨⟨2001, 1, 1, 6⟩, 0, []⟩] : List Row).take 1 =
      ([⟨⟨2001, 1, 1, 5⟩, 0, []⟩, ⟨⟨2001, 1, 1, 5⟩, 2, []⟩,
        ⟨⟨2001, 1, 1, 6⟩, 0, []⟩] : List Row).take 1) ∧
    bundleScaler (load_data none true true false 1 1 1 "simple" false
        [⟨⟨2001, 1, 1, 5⟩, 0, []⟩, ⟨⟨2001, 1, 1, 5⟩, 0, []⟩,
          ⟨⟨2001, 1, 1, 6⟩, 0, []⟩]) ≠
      bundleScaler (load_data none true true false 1 1 1 "simple" false
        [⟨⟨2001, 1, 1, 5⟩, 0, []⟩, ⟨⟨2001, 1, 1, 5⟩, 2, []⟩,
          ⟨⟨2001, 1, 1, 6⟩, 0, []⟩]) := by
  refine ⟨rfl, ?_⟩
  rw [bundleScaler_load_data_detrend_simple_infer none false 1 1 1 _ (by decide),
    bundleScaler_load_data_detrend_simple_infer none false 1 1 1 _ (by decide)]
  rw [(by norm_num : (((1 : ℕ) : ℤ) + ((1 : ℕ) : ℤ)) = (2 : ℤ))]
  rw [apply_detrend_eq, apply_detrend_eq]
  have hpt : (pyTake (2 : ℤ) : List Row → List Row) = fun l => l.take 2 := by
    funext l
    simp only [pyTake]
    norm_num
    omega
  have hfc : ∀ col : List ℚ, fitCol none col = .standard (qmean col) (qvar col) := by
    intro col
    simp [fitCol]
  norm_num [hourMean, hpt, transform, columns, hfc, qmean, qvar, List.take_succ_cons,
    List.take_zero, List.filter_cons, List.filter_nil, List.mem_cons, List.not_mem_nil]
  norm_num [List.range_succ, Function.comp_def, hfc, qmean, qvar, Scaler.standard.injEq]

theorem load_data_scaler_prefix_witness :
    1 < ([⟨⟨2001, 1, 1, 0⟩, 1, []⟩, ⟨⟨2001, 1, 1, 1⟩, 2, []⟩] : List Row).length ∧
    1 < ([⟨⟨2001, 1, 1, 0⟩, 1, []⟩, ⟨⟨2001, 1, 1, 1⟩, 3, []⟩] : List Row).length ∧
    (([⟨⟨2001, 1, 1, 0⟩, 1, []⟩, ⟨⟨2001, 1, 1, 1⟩, 2, []⟩] : List Row).take 1).map
        (fun r => r.load) =
      (([⟨⟨2001, 1, 1, 0⟩, 1, []⟩, ⟨⟨2001, 1, 1, 1⟩, 3, []⟩] : List Row).take 1).map
        (fun r => r.load) ∧
    bundleScaler (load_data none true false false 1 1 1 "simple" false
        [⟨⟨2001, 1, 1, 0⟩, 1, []⟩, ⟨⟨2001, 1, 1, 1⟩, 2, []⟩]) =
      bundleScaler (load_data none true false false 1 1 1 "simple" false
        [⟨⟨2001, 1, 1, 0⟩, 1, []⟩, ⟨⟨2001, 1, 1, 1⟩, 3, []⟩]) :=
  ⟨by decide, by decide, rfl,
    load_data_scaler_depends_only_on_train_prefix none false 1 1 1 "simple" false
      _ _ (by decide) (by decide) rfl⟩

theorem detrend_reconstruct_witness :
    (∀ r ∈ ([⟨⟨2001, 1, 1, 0⟩, 5, []⟩, ⟨⟨2001, 1, 1, 0⟩, 7, []⟩] : List Row),
      r.dt.hour ∈ (pyTake 2 ([⟨⟨2001, 1, 1, 0⟩, 5, []⟩,
        ⟨⟨2001, 1, 1, 0⟩, 7, []⟩] : List Row)).map (fun q => q.dt.hour)) ∧
    inverse_transform
        ((transform ((((apply_detrend ([⟨⟨2001, 1, 1, 0⟩, 5, []⟩,
            ⟨⟨2001, 1, 1, 0⟩, 7, []⟩] : List Row) 2).1.map (fun r => r.load)).dropLast).map
          (fun v => [v])) none none).2)
        ((transform ((((apply_detrend ([⟨⟨2001, 1, 1, 0⟩, 5, []⟩,
            ⟨⟨2001, 1, 1, 0⟩, 7, []⟩] : List Row) 2).1.map (fun r => r.load)).dropLast).map
          (fun v => [v])) none none).1)
        (some ((apply_detrend ([⟨⟨2001, 1, 1, 0⟩, 5, []⟩,
          ⟨⟨2001, 1, 1, 0⟩, 7, []⟩] : List Row) 2).2.map (fun o => [((o.getD 0 : ℚ) : ℝ)]))) =
      ((([⟨⟨2001, 1, 1, 0⟩, 5, []⟩, ⟨⟨2001, 1, 1, 0⟩, 7, []⟩] : List Row).map
        (fun r => r.load)).dropLast).map (fun v => [((v : ℚ) : ℝ)]) :=
  ⟨by decide, detrend_transform_inverse_reconstructs _ 2 none (by decide)⟩

theorem transform_roundtrip_witness :
    (([[2], [4]] : List (List ℚ)) ≠ []) ∧
    (∀ r ∈ ([[2], [4]] : List (List ℚ)), r.length = 1) ∧
    inverse_transform
        ((transform [[2], [4]] (some ((transform [[2], [4]] none none).1)) none).2)
        ((transform [[2], [4]] none none).1) none =
      ([[2], [4]] : List (List ℚ)).map (fun row => row.map (fun x : ℚ => (x : ℝ))) :=
  ⟨by decide, by decide,
    transform_inverse_transform_roundtrip [[2], [4]] none 1 (by decide) (by decide)⟩

theorem add_exogenous_slice_witness :
    (([⟨⟨2001, 1, 1, 0⟩, 1, []⟩, ⟨⟨2001, 1, 1, 1⟩, 2, []⟩] : List Row) ≠ []) ∧
    (∀ r ∈ ([⟨⟨2001, 1, 1, 0⟩, 1, []⟩, ⟨⟨2001, 1, 1, 1⟩, 2, []⟩] : List Row),
      r.temps.length = 0) ∧
    ((add_exogenous_variables ([⟨⟨2001, 1, 1, 0⟩, 1, []⟩,
        ⟨⟨2001, 1, 1, 1⟩, 2, []⟩] : List Row) true).1 =
      (([⟨⟨2001, 1, 1, 0⟩, 1, []⟩, ⟨⟨2001, 1, 1, 1⟩, 2, []⟩] : List Row).map
        (fun r => r.temps)).drop 1 ∧
    (add_exogenous_variables ([⟨⟨2001, 1, 1, 0⟩, 1, []⟩,
        ⟨⟨2001, 1, 1, 1⟩, 2, []⟩] : List Row) true).2 =
      ((_add_holidays (([⟨⟨2001, 1, 1, 0⟩, 1, []⟩,
          ⟨⟨2001, 1, 1, 1⟩, 2, []⟩] : List Row).map mkExRow)).map (fun r =>
        ((exDummies (_add_holidays (([⟨⟨2001, 1, 1, 0⟩, 1, []⟩,
          ⟨⟨2001, 1, 1, 1⟩, 2, []⟩] : List Row).map mkExRow)) r).drop 1).map
          Cell.q)).drop 1 ∧
    (add_exogenous_variables ([⟨⟨2001, 1, 1, 0⟩, 1, []⟩,
        ⟨⟨2001, 1, 1, 1⟩, 2, []⟩] : List Row) false).2 =
      (_add_holidays (([⟨⟨2001, 1, 1, 0⟩, 1, []⟩,
        ⟨⟨2001, 1, 1, 1⟩, 2, []⟩] : List Row).map mkExRow)).map exRowRawValues) :=
  ⟨by decide, by decide,
    add_exogenous_one_hot_slice_drops_first_dummy _ 0 (by decide) (by decide)⟩

theorem add_holidays_witness :
    (∀ r ∈ ([⟨⟨⟨2001, 1, 1, 0⟩, 1, []⟩, 2001, 1, 1, 0, 0⟩,
        ⟨⟨⟨2001, 3, 2, 4⟩, 1, []⟩, 2001, 3, 2, 4, 0⟩] : List ExRow), r.holiday = 0) ∧
    _add_holidays ([⟨⟨⟨2001, 1, 1, 0⟩, 1, []⟩, 2001, 1, 1, 0, 0⟩,
        ⟨⟨⟨2001, 3, 2, 4⟩, 1, []⟩, 2001, 3, 2, 4, 0⟩] : List ExRow) =
      ([⟨⟨⟨2001, 1, 1, 0⟩, 1, []⟩, 2001, 1, 1, 0, 0⟩,
        ⟨⟨⟨2001, 3, 2, 4⟩, 1, []⟩, 2001, 3, 2, 4, 0⟩] : List ExRow).map (fun r =>
        { r with holiday :=
          if (r.day = 1 ∧ r.month = 1) ∨ (r.day = 4 ∧ r.month = 7) ∨
             (r.day = 11 ∧ r.month = 11) ∨ (r.day = 25 ∧ r.month = 12) then 1 else 0 }) :=
  ⟨by decide, add_holidays_flags_exactly_four_dates _ (by decide)⟩

theorem invalid_split_witness :
    (¬("bogus" = "simple" ∨ "bogus" = "multi" ∨ "bogus" = "default")) ∧
    load_data none true false false 1 1 1 "bogus" false [] =
      .error ("bogus" ++ " is not a valid split type.") :=
  ⟨by decide,
    load_data_invalid_split_type_fails_fast none true false false 1 1 1 "bogus" false
      (by decide) []⟩

theorem detrend_invalid_witness :
    ("multi" = "multi" ∨ ("multi" = "default" ∧ true = true)) ∧
    load_data none true true false 1 1 1 "multi" true [] =
      .error "Detrend cannot be applied with this type of split." :=
  ⟨by decide,
    load_data_detrend_invalid_combination_fails none true false 1 1 1 "multi" true
      (by decide) []⟩

/-- C5 counterexample: on a two-row frame the encoded dummy block has 6
columns ([year 2001], [month 1], [day 1], [hour 0, hour 1], [holiday 1]) but
the trailing slice keeps only 5: the returned matrix is not "exactly the
newly-added one-hot columns"; the first year indicator is missing. -/
theorem add_exogenous_slice_counterexample :
    (add_exogenous_variables ([⟨⟨2001, 1, 1, 0⟩, 1, []⟩,
        ⟨⟨2001, 1, 1, 1⟩, 2, []⟩] : List Row) true).2 =
      [[Cell.q 1, Cell.q 1, Cell.q 0, Cell.q 1, Cell.q 1]] ∧
    (add_exogenous_variables ([⟨⟨2001, 1, 1, 0⟩, 1, []⟩,
        ⟨⟨2001, 1, 1, 1⟩, 2, []⟩] : List Row) true).2 ≠
      ((_add_holidays (([⟨⟨2001, 1, 1, 0⟩, 1, []⟩,
          ⟨⟨2001, 1, 1, 1⟩, 2, []⟩] : List Row).map mkExRow)).map (fun r =>
        (exDummies (_add_holidays (([⟨⟨2001, 1, 1, 0⟩, 1, []⟩,
          ⟨⟨2001, 1, 1, 1⟩, 2, []⟩] : List Row).map mkExRow)) r).map Cell.q)).drop 1 := by
  constructor <;> decide
